import Mathlib

/-!
Shallow embedding of the OpenGathyr core: the RSS feed registry/refresher
(src/services/rss-service.ts) and the MCP protocol adapter
(src/adapters/mcpSdkAdapter.ts), together with theorems checking the
natural-language specification against these definitions.

JavaScript idioms are modelled explicitly: `undefined`/absent fields become
`Option`, the string-falsiness of `x || d` becomes `jsStrOr`, JS `Record`s and
`Map`s (insertion-ordered, last-write-wins) become association lists with
`recUpsert`/`recGet`/`recDel`, and a thrown exception becomes the
`Except String` error channel carrying the exception message.
-/

namespace OpenGathyr

/-- A single-quote character, used inside log/error message strings. -/
def sq : String := String.singleton (Char.ofNat 39)

/-- `charsLeads needle hay`: `needle` is an initial segment of `hay`
(char-list form of JS `String.prototype.startsWith`). -/
def charsLeads : List Char → List Char → Bool
  | [], _ => true
  | _ :: _, [] => false
  | a :: as, b :: bs => a == b && charsLeads as bs

/-- `charsHas needle hay`: `needle` occurs contiguously inside `hay`
(char-list form of JS `String.prototype.includes`). -/
def charsHas (needle : List Char) : List Char → Bool
  | [] => charsLeads needle []
  | c :: rest => charsLeads needle (c :: rest) || charsHas needle rest

/-- JS `hay.includes(needle)` on strings. -/
def jsIncludes (hay needle : String) : Bool :=
  charsHas needle.data hay.data

/-- JS `v || d` for an optional string `v`: `undefined` and the empty string
are falsy, any other string is returned unchanged. -/
def jsStrOr (v : Option String) (d : String) : String :=
  match v with
  | none => d
  | some s => if s = "" then d else s

/-- JS `a || b` where both sides are optional strings
(used for `item.creator || item.author`). -/
def jsStrOrOpt (a b : Option String) : Option String :=
  match a with
  | none => b
  | some s => if s = "" then b else some s

/-- JS truthiness of an optional string: `undefined` and `""` are falsy. -/
def jsTruthyStr : Option String → Bool
  | none => false
  | some s => !(s == "")

/-- JS `String.prototype.toLowerCase`, modelled characterwise with
`Char.toLower`. -/
def jsToLower (s : String) : String := String.mk (s.data.map Char.toLower)

/-- JS `String.prototype.trim` on a char list (both ends). -/
def jsTrim (l : List Char) : List Char :=
  ((l.dropWhile Char.isWhitespace).reverse.dropWhile Char.isWhitespace).reverse

/-- Lookup in a JS `Record`/`Map` modelled as an insertion-ordered
association list. -/
def recGet (k : String) : List (String × α) → Option α
  | [] => none
  | (k₁, v) :: t => if k₁ = k then some v else recGet k t

/-- JS `Record`/`Map` write `m[k] = v`: overwrite in place if the key exists
(keeping its position), otherwise append. -/
def recUpsert (k : String) (v : α) : List (String × α) → List (String × α)
  | [] => [(k, v)]
  | (k₁, v₁) :: t => if k₁ = k then (k, v) :: t else (k₁, v₁) :: recUpsert k v t

/-- JS `delete m[k]` / `Map.delete`. -/
def recDel (k : String) : List (String × α) → List (String × α)
  | [] => []
  | (k₁, v₁) :: t => if k₁ = k then t else (k₁, v₁) :: recDel k t

/-! ## RSS service data model (src/types/rss.ts, src/services/rss-service.ts) -/

/-- `DEFAULT_REFRESH_INTERVAL` from src/config/config.ts (5 minutes in ms). -/
def DEFAULT_REFRESH_INTERVAL : Nat := 300000

/-- `DEFAULT_MAX_ITEMS` from src/config/config.ts. -/
def DEFAULT_MAX_ITEMS : Nat := 20

/-- `FeedItem` as stored in a cached snapshot. All fields the source type
marks optional are `Option`; `title` is `Option` as well because
`searchFeeds` guards it with optional chaining (`item.title?.`). -/
structure FeedItem where
  title : Option String
  link : Option String
  content : Option String
  contentSnippet : Option String
  author : Option String
  categories : Option (List String)
  pubDate : Option String
  isoDate : Option String
  guid : Option String
deriving DecidableEq

/-- A cached `Feed` snapshot. `lastUpdated` (`new Date()`) is an opaque
timestamp, modelled as a `Nat`. -/
structure Feed where
  title : String
  description : Option String
  link : Option String
  items : List FeedItem
  lastUpdated : Nat
  feedUrl : String
deriving DecidableEq

/-- A stored feed configuration. `addFeed` always stores the destructured
locals, so `refreshInterval` and `maxItems` are present after defaulting. -/
structure FeedConfig where
  name : String
  url : String
  refreshInterval : Nat
  maxItems : Nat
deriving DecidableEq

/-- Input configuration (`RSSFeedConfig`), with the optional fields still
optional. -/
structure FeedConfigIn where
  name : String
  url : String
  refreshInterval : Option Nat
  maxItems : Option Nat
deriving DecidableEq

/-- An item as returned by `rss-parser` (`parsedFeed.items`). -/
structure ParsedItem where
  title : Option String
  link : Option String
  content : Option String
  contentSnippet : Option String
  creator : Option String
  author : Option String
  categories : Option (List String)
  pubDate : Option String
  isoDate : Option String
  guid : Option String
deriving DecidableEq

/-- A feed as returned by `rss-parser` (`parser.parseURL`). -/
structure ParsedFeed where
  title : Option String
  description : Option String
  link : Option String
  items : List ParsedItem
deriving DecidableEq

/-- Log lines observable from the service (`console.warn` / `console.error`
/ `console.log`). -/
inductive LogMsg where
  | warn (s : String)
  | error (s : String)
  | info (s : String)
deriving DecidableEq

/-- The mutable state of one `RSSService` instance: the snapshot store
`feeds` (a JS record), the `feedConfigs` map and the `refreshIntervals`
timer map (timer handles modelled as `Nat`). -/
structure RSSState where
  feeds : List (String × Feed)
  feedConfigs : List (String × FeedConfig)
  refreshIntervals : List (String × Nat)
deriving DecidableEq

/-- The item conversion inside `fetchFeed`
(`parsedFeed.items.map(item => ({...}))`). -/
def convItem (item : ParsedItem) : FeedItem :=
  { title := some (jsStrOr item.title "Untitled")
    link := item.link
    content := item.content
    contentSnippet := item.contentSnippet
    author := jsStrOrOpt item.creator item.author
    categories := item.categories
    pubDate := item.pubDate
    isoDate := item.isoDate
    guid := item.guid }

/-- The snapshot object literal assigned to `this.feeds[feedName]` in
`fetchFeed` on a successful parse. -/
def buildSnapshot (cfg : FeedConfig) (feedName : String) (pf : ParsedFeed)
    (now : Nat) : Feed :=
  { title := jsStrOr pf.title feedName
    description := pf.description
    link := pf.link
    items := (pf.items.map convItem).take cfg.maxItems
    lastUpdated := now
    feedUrl := cfg.url }

/-- `RSSService.fetchFeed`. The external `parser.parseURL(url)` outcome is
passed in as `fetchResult` (`.error e` = the awaited promise rejected with
message `e`), `now` is the clock read by `new Date()`. The second component
is the exception thrown to the caller (`some msg`), either from the
missing-config guard or rethrown from the catch block; the state is written
only on the success path. -/
def fetchFeed (st : RSSState) (feedName : String)
    (fetchResult : Except String ParsedFeed) (now : Nat) :
    RSSState × Option String :=
  match recGet feedName st.feedConfigs with
  | none => (st, some ("No feed with name " ++ sq ++ feedName ++ sq ++ " found."))
  | some cfg =>
    match fetchResult with
    | .error e => (st, some e)
    | .ok pf =>
      ({ st with feeds := recUpsert feedName (buildSnapshot cfg feedName pf now) st.feeds },
       none)

/-- The `setInterval` callback installed by `startFeedRefresh`:
`fetchFeed(feedName).catch(error => console.error(...))` — a timer-triggered
refresh never rethrows, it only logs the failure. -/
def timerTick (st : RSSState) (feedName : String)
    (fetchResult : Except String ParsedFeed) (now : Nat) :
    RSSState × List LogMsg :=
  let r := fetchFeed st feedName fetchResult now
  match r.2 with
  | some _ =>
      (r.1, [LogMsg.error ("[RSSService] Error refreshing feed " ++ feedName ++ ":")])
  | none => (r.1, [])

/-- `RSSService.stopFeedRefresh`: clear and drop the feed's interval handle
if one exists. -/
def stopFeedRefresh (st : RSSState) (feedName : String) : RSSState :=
  if (recGet feedName st.refreshIntervals).isSome then
    { st with refreshIntervals := recDel feedName st.refreshIntervals }
  else st

/-- `RSSService.removeFeed`, returning the new state and the log lines it
emits. An unregistered name only logs a warning and returns. -/
def removeFeed (st : RSSState) (feedName : String) : RSSState × List LogMsg :=
  if (recGet feedName st.feedConfigs).isNone then
    (st, [LogMsg.warn ("No feed with name " ++ sq ++ feedName ++ sq ++ " found.")])
  else
    let st₁ := stopFeedRefresh st feedName
    ({ st₁ with
        feedConfigs := recDel feedName st₁.feedConfigs
        feeds := recDel feedName st₁.feeds },
     [LogMsg.info ("[RSSService] Feed " ++ sq ++ feedName ++ sq ++ " removed.")])

/-- The per-item match condition inside `searchFeeds`
(`titleMatch || contentMatch`), with `lq` the lowercased query. -/
def itemMatches (lq : String) (item : FeedItem) : Bool :=
  (match item.title with
   | none => false
   | some s => jsIncludes (jsToLower s) lq) ||
  ((match item.content with
    | none => false
    | some s => jsIncludes (jsToLower s) lq) ||
   (match item.contentSnippet with
    | none => false
    | some s => jsIncludes (jsToLower s) lq))

/-- `RSSService.searchFeeds`: lowercase the query, then for each cached feed
in store order and each item in snapshot order, push matching items onto the
result array. -/
def searchFeeds (st : RSSState) (query : String) : List FeedItem :=
  let lq := jsToLower query
  (st.feeds.map Prod.snd).foldl
    (fun results feed =>
      feed.items.foldl
        (fun results item =>
          if itemMatches lq item then results ++ [item] else results)
        results)
    []

/-! ## Refresh timer schedule (src/services/rss-service.ts, startFeedRefresh) -/

/-- Tick schedule induced by `startFeedRefresh`: it installs
`setInterval(cb, refreshInterval)` and `cb` calls `fetchFeed` without
awaiting it, so (idealized, zero-drift) tick `n` fires at
`(n+1) * refreshInterval` after scheduling, independent of how long each
refresh takes. The `dur` argument gives each tick's refresh duration and is
ignored by this schedule; it is present to align the type with
`fixedDelayTickTime`. -/
def codeTickTime (refreshInterval : Nat) (dur : Nat → Nat) : Nat → Nat
  | 0 => refreshInterval
  | n + 1 => codeTickTime refreshInterval dur n + refreshInterval

/-- Modelled from the spec: "Fixed-delay scheduling: the next tick is
scheduled a fixed interval after the previous tick's completion, not after
its nominal start time." Tick `n`'s refresh takes `dur n`, so tick `n+1`
fires `refreshInterval` after tick `n` completes. -/
def fixedDelayTickTime (refreshInterval : Nat) (dur : Nat → Nat) : Nat → Nat
  | 0 => refreshInterval
  | n + 1 => fixedDelayTickTime refreshInterval dur n + dur n + refreshInterval

/-! ## MCP protocol adapter data model (src/adapters/mcpSdkAdapter.ts)

Type parameters: `V` is the opaque payload type returned by tool/resource
handlers, `U` the opaque value type inside untyped JS parameter objects
(`Record<string, unknown>` becomes `PBag U`). -/

/-- JS `Record<string, unknown>`: an insertion-ordered bag of entries. -/
abbrev PBag (U : Type) := List (String × U)

/-- A JSON-RPC `id` (string or number). -/
inductive JsonId where
  | num (n : Int)
  | str (s : String)
deriving DecidableEq

/-- A JS value probed with `typeof v !== 'string'` (the tool/resource `name`
field): either a string or some non-string value. An absent/`undefined`
field is `Option.none` one level up. -/
inductive JsVal where
  | str (s : String)
  | other
deriving DecidableEq

/-- A registered tool (`this.tools[name]`). -/
structure Tool (V U : Type) where
  name : String
  description : String
  params : PBag U
  handler : PBag U → Except String V

/-- A registered resource (`this.resources[name]`). -/
structure Resource (V U : Type) where
  name : String
  description : String
  handler : PBag U → Except String V

/-- One entry of `capabilities.tools` (`{description, params}`). -/
structure ToolCapability (U : Type) where
  description : String
  params : PBag U
deriving DecidableEq

/-- The capability table (`this.capabilities`): `resources` entries only
carry a description. -/
structure Capabilities (U : Type) where
  tools : List (String × ToolCapability U)
  resources : List (String × String)
deriving DecidableEq

/-- The `McpServer` state. -/
structure McpServer (V U : Type) where
  name : String
  version : String
  tools : List (String × Tool V U)
  resources : List (String × Resource V U)
  capabilities : Capabilities U

/-- `McpServer.tool`: store the handler under `name` and mirror
`{description, params}` into `capabilities.tools[name]`. -/
def registerTool (srv : McpServer V U) (name description : String)
    (params : PBag U) (handler : PBag U → Except String V) : McpServer V U :=
  { srv with
    tools := recUpsert name ⟨name, description, params, handler⟩ srv.tools
    capabilities := { srv.capabilities with
      tools := recUpsert name ⟨description, params⟩ srv.capabilities.tools } }

/-- `McpServer.resource`: store the handler under `name` and mirror
`{description}` into `capabilities.resources[name]`. -/
def registerResource (srv : McpServer V U) (name description : String)
    (handler : PBag U → Except String V) : McpServer V U :=
  { srv with
    resources := recUpsert name ⟨name, description, handler⟩ srv.resources
    capabilities := { srv.capabilities with
      resources := recUpsert name description srv.capabilities.resources } }

/-- A normalized `MCPRequest` as consumed by the dispatch handler: the
fields the handler reads, each `Option` when the JS property may be absent. -/
structure MCPRequest (U : Type) where
  type : Option String
  jsonrpc : Option String
  id : Option JsonId
  name : Option JsVal
  params : Option (PBag U)
deriving DecidableEq

/-- The payload of an `MCPResponse`; the constructor determines the
response's `type` string (see `ResponseBody.rtype`), exactly as the
dispatch branches pair them. -/
inductive ResponseBody (V U : Type) where
  | initializeResult (serverName serverVersion : String)
  | capabilitiesResult (caps : Capabilities U)
  | toolsListResult (tools : List (String × String × PBag U))
  | toolResult (v : V)
  | resourceResult (v : V)
  | errorResult (message : String)
deriving DecidableEq

/-- The `type` discriminant string the dispatch code writes alongside each
body shape. -/
def ResponseBody.rtype : ResponseBody V U → String
  | .initializeResult _ _ => "initialize_result"
  | .capabilitiesResult _ => "capabilities_result"
  | .toolsListResult _ => "tools/list_result"
  | .toolResult _ => "tool_result"
  | .resourceResult _ => "resource_result"
  | .errorResult _ => "error"

/-- A normalized `MCPResponse`: the optional `jsonrpc`/`id` echo fields plus
the typed body. -/
structure MCPResponse (V U : Type) where
  jsonrpc : Option String
  id : Option JsonId
  body : ResponseBody V U
deriving DecidableEq

/-- The "Add JSON-RPC properties if needed" pattern repeated in every
dispatch branch: when `request.jsonrpc === '2.0'`, the response carries
`jsonrpc`/`id` from the request; otherwise neither field is set. -/
def mkResp (req : MCPRequest U) (body : ResponseBody V U) : MCPResponse V U :=
  if req.jsonrpc = some "2.0" then
    { jsonrpc := req.jsonrpc, id := req.id, body := body }
  else
    { jsonrpc := none, id := none, body := body }

/-- The body of the `try` block in the `request` listener of
`McpServer.connect`: the dispatch state machine. A `.error msg` is a thrown
exception with message `msg` (including an `Except.error` from the awaited
handler). -/
def dispatchEx (srv : McpServer V U) (req : MCPRequest U) :
    Except String (MCPResponse V U) :=
  if req.type = some "initialize" ∨ jsTruthyStr req.type = false then
    .ok (mkResp req (.initializeResult srv.name srv.version))
  else if req.type = some "capabilities" then
    .ok (mkResp req (.capabilitiesResult srv.capabilities))
  else if req.type = some "tools/list" then
    .ok (mkResp req
      (.toolsListResult (srv.tools.map fun p => (p.1, p.2.description, p.2.params))))
  else if req.type = some "tool" then
    match req.name with
    | some (JsVal.str nm) =>
      (match recGet nm srv.tools with
       | none => .error ("Tool not found: " ++ nm)
       | some t =>
         match t.handler (req.params.getD []) with
         | .error e => .error e
         | .ok v => .ok (mkResp req (.toolResult v)))
    | _ => .error "Tool name must be a string"
  else if req.type = some "resource" then
    match req.name with
    | some (JsVal.str nm) =>
      (match recGet nm srv.resources with
       | none => .error ("Resource not found: " ++ nm)
       | some r =>
         match r.handler (req.params.getD []) with
         | .error e => .error e
         | .ok v => .ok (mkResp req (.resourceResult v)))
    | _ => .error "Resource name must be a string"
  else
    .error ("Unknown request type: " ++ req.type.getD "")

/-- The `catch` block of the `request` listener: the thrown message becomes
an `error` response, with `jsonrpc`/`id` echoed when the request was
JSON-RPC. -/
def errorResponseFor (req : MCPRequest U) (msg : String) : MCPResponse V U :=
  mkResp req (.errorResult msg)

/-- The single dispatch boundary: run the `try` body and convert any thrown
exception into an error response. Always yields exactly one response. -/
def dispatch (srv : McpServer V U) (req : MCPRequest U) : MCPResponse V U :=
  match dispatchEx srv req with
  | .ok resp => resp
  | .error msg => errorResponseFor req msg

/-- The value delivered to the `request` listener: JS lets it be falsy
(`null` etc.), a truthy non-object, or a request object. -/
inductive ReqVal (U : Type) where
  | falsy
  | nonObject
  | obj (r : MCPRequest U)

/-- The whole `request` listener of `McpServer.connect`: a falsy request
returns without responding; a non-object throws inside the `try` (caught as
an error response); an object is dispatched. `Option` models the number of
`transport.send` calls (`none` = zero, `some` = exactly one). -/
def handleRequest (srv : McpServer V U) : ReqVal U → Option (MCPResponse V U)
  | .falsy => none
  | .nonObject =>
      some { jsonrpc := none, id := none,
             body := .errorResult "Invalid request: Request must be a valid JSON object" }
  | .obj r => some (dispatch srv r)

/-! ## Stdio transport (src/adapters/mcpSdkAdapter.ts, StdioServerTransport) -/

/-- The `message.params` object of a parsed wire message, as the three ways
the data handler consumes it: member access `.name` and `.params`, and
pass-through of the whole object as a parameter bag (`bag`). -/
structure WireParams (U : Type) where
  name : Option JsVal
  params : Option (PBag U)
  bag : PBag U
deriving DecidableEq

/-- A successfully `JSON.parse`d line, with every field the data handler
reads. -/
structure WireMsg (U : Type) where
  jsonrpc : Option String
  method : Option String
  id : Option JsonId
  mtype : Option String
  name : Option JsVal
  params : Option (WireParams U)
deriving DecidableEq

/-- The mutable `StdioServerTransport` session state. -/
structure TransportState where
  buffer : List Char
  initializedEmitted : Bool
  isJsonRpc : Bool
deriving DecidableEq

/-- The JSON-RPC → MCP conversion of the data handler (`mcpMessage`),
branching on `message.method`. -/
def convertRpc (m : WireMsg U) : MCPRequest U :=
  if m.method = some "initialize" then
    { type := some "initialize", jsonrpc := m.jsonrpc, id := m.id,
      name := none, params := (m.params.map WireParams.bag) }
  else if m.method = some "capabilities" then
    { type := some "capabilities", jsonrpc := m.jsonrpc, id := m.id,
      name := none, params := (m.params.map WireParams.bag) }
  else if m.method = some "tools/list" then
    { type := some "tools/list", jsonrpc := m.jsonrpc, id := m.id,
      name := none, params := (m.params.map WireParams.bag) }
  else if m.method = some "tool" then
    { type := some "tool", jsonrpc := m.jsonrpc, id := m.id,
      name := (match m.params with | some p => p.name | none => none),
      params := (match m.params with | some p => p.params | none => some []) }
  else if m.method = some "resource" then
    { type := some "resource", jsonrpc := m.jsonrpc, id := m.id,
      name := (match m.params with | some p => p.name | none => none),
      params := (match m.params with | some p => p.params | none => some []) }
  else
    { type := m.method, jsonrpc := m.jsonrpc, id := m.id,
      name := none, params := (m.params.map WireParams.bag) }

/-- A native (non-JSON-RPC) message is emitted unchanged as the request. -/
def nativeRequest (m : WireMsg U) : MCPRequest U :=
  { type := m.mtype, jsonrpc := m.jsonrpc, id := m.id,
    name := m.name, params := (m.params.map WireParams.bag) }

/-- The synthetic `{ type: 'initialize' }` request emitted on a parse
failure before any handshake. -/
def defaultInitRequest : MCPRequest U :=
  { type := some "initialize", jsonrpc := none, id := none,
    name := none, params := none }

/-- What processing one trimmed, non-empty line does to the control flow of
the data handler: emit a request and continue; continue silently; or
`abort` — the `return` taken for a `notifications/` message, which exits the
whole data callback. -/
inductive LineOutcome (U : Type) where
  | emit (r : MCPRequest U)
  | silent
  | abort
deriving DecidableEq

/-- Processing of one trimmed non-empty `messageLine`:
`JSON.parse` (abstracted as `parse`; `none` = parse exception), the
JSON-RPC detection setting `isJsonRpc`, the `notifications/` early return,
the per-method conversion, the native pass-through, and the parse-error
recovery. Returns the updated `initializedEmitted` and `isJsonRpc` flags
and the outcome. -/
def handleLine (parse : List Char → Option (WireMsg U))
    (initEmitted isRpc : Bool) (line : List Char) :
    Bool × Bool × LineOutcome U :=
  match parse line with
  | some m =>
    if m.jsonrpc = some "2.0" then
      if jsTruthyStr m.method && charsLeads "notifications/".data ((m.method.getD "").data) then
        (initEmitted, true, .abort)
      else if m.method = some "initialize" then
        (true, true, .emit (convertRpc m))
      else
        (initEmitted, true, .emit (convertRpc m))
    else
      if m.mtype = some "initialize" ∧ initEmitted = false then
        (true, isRpc, .emit (nativeRequest m))
      else
        (initEmitted, isRpc, .emit (nativeRequest m))
  | none =>
    if initEmitted = false then
      (true, isRpc, .emit defaultInitRequest)
    else
      (initEmitted, isRpc, .silent)

/-- Split the accumulated buffer at each line terminator, exactly as the
repeated `indexOf('\n')`/`substring` loop consumes it: the complete lines
in order, plus the trailing text after the last terminator. -/
def splitBuffer : List Char → List (List Char) × List Char
  | [] => ([], [])
  | c :: rest =>
    let (ls, tl) := splitBuffer rest
    if c = '\n' then ([] :: ls, tl)
    else
      match ls with
      | [] => ([], c :: tl)
      | l :: ls₁ => ((c :: l) :: ls₁, tl)

/-- Re-serialize unconsumed complete lines (each with its terminator) in
front of the trailing partial text: the buffer contents left behind when
the data callback returns early. -/
def joinLines : List (List Char) → List Char → List Char
  | [], tl => tl
  | l :: ls, tl => l ++ '\n' :: joinLines ls tl

/-- The `while` loop of the data handler over the already-split complete
lines: blank lines (after trim) are skipped, each other line is handled,
and an `abort` outcome (the notification `return`) stops the loop leaving
the remaining lines unconsumed. Returns the leftover lines, both flags and
the emitted requests in order. -/
def runLines (parse : List Char → Option (WireMsg U)) :
    List (List Char) → Bool → Bool → List (MCPRequest U) →
    List (List Char) × Bool × Bool × List (MCPRequest U)
  | [], initEmitted, isRpc, acc => ([], initEmitted, isRpc, acc)
  | line :: ls, initEmitted, isRpc, acc =>
    let tl := jsTrim line
    if tl.isEmpty then runLines parse ls initEmitted isRpc acc
    else
      match handleLine parse initEmitted isRpc tl with
      | (init₁, rpc₁, .emit r) => runLines parse ls init₁ rpc₁ (acc ++ [r])
      | (init₁, rpc₁, .silent) => runLines parse ls init₁ rpc₁ acc
      | (init₁, rpc₁, .abort) => (ls, init₁, rpc₁, acc)

/-- The full `data` event handler: append the chunk, process the complete
lines, and keep whatever was not consumed (the trailing partial line, plus
— on a notification early return — every line after the notification) as
the new buffer. Returns the new session state and the emitted requests. -/
def onData (parse : List Char → Option (WireMsg U))
    (ts : TransportState) (chunk : List Char) :
    TransportState × List (MCPRequest U) :=
  let buf := ts.buffer ++ chunk
  let res := runLines parse (splitBuffer buf).1 ts.initializedEmitted ts.isJsonRpc []
  ({ buffer := joinLines res.1 (splitBuffer buf).2,
     initializedEmitted := res.2.1, isJsonRpc := res.2.2.1 },
   res.2.2.2)

/-! ## Outgoing serialization (StdioServerTransport.send) -/

/-- The `result` payload of an outgoing JSON-RPC message, one constructor
per conversion branch of `send`. -/
inductive RpcResult (V U : Type) where
  | initPayload (serverName serverVersion : String)
      (toolCaps : List (String × String × PBag U))
  | caps (c : Capabilities U)
  | items (l : List (String × String × PBag U))
  | value (v : V)
deriving DecidableEq

/-- The `error` payload of an outgoing JSON-RPC message. -/
structure RpcError where
  code : Int
  message : String
deriving DecidableEq

/-- An outgoing JSON-RPC message (`jsonrpcMessage`). -/
structure JSONRPCOut (V U : Type) where
  id : Option JsonId
  result : Option (RpcResult V U)
  error : Option RpcError
deriving DecidableEq

/-- A serialized outgoing message: either the enveloped (JSON-RPC) shape or
the native MCP shape. -/
inductive OutMsg (V U : Type) where
  | envl (m : JSONRPCOut V U)
  | native (m : MCPResponse V U)
deriving DecidableEq

/-- The tool-capability enumeration in the `initialize_result` conversion:
`Object.entries(this.server?.capabilities?.tools || {}).map(...)`. -/
def toolCapsList (serverCaps : Option (Capabilities U)) :
    List (String × String × PBag U) :=
  ((serverCaps.map Capabilities.tools).getD []).map
    (fun p => (p.1, p.2.description, p.2.params))

/-- `StdioServerTransport.send`: when the session has committed to JSON-RPC
and the message has a truthy `type`, convert to the enveloped shape
(carrying the id only when both `jsonrpc` and `id` are present on the
response); otherwise write the native shape. `serverCaps` is
`this.server?.capabilities`. -/
def send (serverCaps : Option (Capabilities U)) (ts : TransportState)
    (m : MCPResponse V U) : OutMsg V U :=
  if ts.isJsonRpc && jsTruthyStr (some m.body.rtype) then
    let jid := if m.jsonrpc.isSome && m.id.isSome then m.id else none
    match m.body with
    | .initializeResult n ver =>
        .envl { id := jid, result := some (.initPayload n ver (toolCapsList serverCaps)),
                error := none }
    | .capabilitiesResult c =>
        .envl { id := jid, result := some (.caps c), error := none }
    | .toolsListResult l =>
        .envl { id := jid, result := some (.items l), error := none }
    | .toolResult v =>
        .envl { id := jid, result := some (.value v), error := none }
    | .resourceResult v =>
        .envl { id := jid, result := some (.value v), error := none }
    | .errorResult msg =>
        .envl { id := jid, result := none,
                error := some ⟨-32603, jsStrOr (some msg) "Unknown error"⟩ }
  else
    .native m

/-! ## Concrete instances used to exercise the definitions -/

/-- A server with the repository's name/version and no registrations yet. -/
def srv0 : McpServer Unit Unit :=
  { name := "opengathyr", version := "1.0.0", tools := [], resources := [],
    capabilities := { tools := [], resources := [] } }

/-- A native `tool` request naming the unregistered tool `ghost-tool`. -/
def ghostReq : MCPRequest Unit :=
  { type := some "tool", jsonrpc := none, id := none,
    name := some (JsVal.str "ghost-tool"), params := none }

/-- A `capabilities` request arriving in the enveloped dialect with id 7. -/
def req7 : MCPRequest Unit :=
  { type := some "capabilities", jsonrpc := some "2.0", id := some (JsonId.num 7),
    name := none, params := none }

/-- A session already committed to the enveloped dialect. -/
def tsRpc : TransportState :=
  { buffer := [], initializedEmitted := true, isJsonRpc := true }

/-- A fresh session. -/
def tsInit : TransportState :=
  { buffer := [], initializedEmitted := false, isJsonRpc := false }

/-- A parsed source item with only a title. -/
def mkTitledItem (t : Option String) : ParsedItem :=
  { title := t, link := none, content := none, contentSnippet := none,
    creator := none, author := none, categories := none,
    pubDate := none, isoDate := none, guid := none }

/-- A source feed with no title and three items (the spec's `n1` scenario). -/
def pf3 : ParsedFeed :=
  { title := none, description := none, link := none,
    items := [mkTitledItem (some "A"), mkTitledItem (some "B"), mkTitledItem (some "C")] }

/-- The spec's scenario configuration `{name:"n1", url:"https://x/rss", maxItems:1}`
(with the default refresh interval filled in as `addFeed` does). -/
def cfg1 : FeedConfig :=
  { name := "n1", url := "https://x/rss", refreshInterval := DEFAULT_REFRESH_INTERVAL,
    maxItems := 1 }

/-- Registry state holding only the `n1` configuration (no snapshot yet). -/
def stN1 : RSSState :=
  { feeds := [], feedConfigs := [("n1", cfg1)], refreshIntervals := [] }

/-- The empty registry state. -/
def stEmpty : RSSState := { feeds := [], feedConfigs := [], refreshIntervals := [] }

/-- A cached snapshot with one titled item. -/
def feedA : Feed :=
  { title := "a", description := none, link := none,
    items := [{ title := some "x", link := none, content := none,
                contentSnippet := none, author := none, categories := none,
                pubDate := none, isoDate := none, guid := none }],
    lastUpdated := 0, feedUrl := "https://a/rss" }

/-- Registry state holding the `feedA` snapshot. -/
def stA : RSSState :=
  { feeds := [("a", feedA)], feedConfigs := [], refreshIntervals := [] }

/-- First line of the notification chunk: an enveloped
`notifications/initialized` message. -/
def notifLine : List Char :=
  "\x7b\"jsonrpc\":\"2.0\",\"method\":\"notifications/initialized\"\x7d".data

/-- Second line of the notification chunk: an enveloped `capabilities`
request. -/
def capsLine : List Char :=
  "\x7b\"jsonrpc\":\"2.0\",\"id\":3,\"method\":\"capabilities\"\x7d".data

/-- The parse of `notifLine`. -/
def notifMsg : WireMsg Unit :=
  { jsonrpc := some "2.0", method := some "notifications/initialized",
    id := none, mtype := none, name := none, params := none }

/-- The parse of `capsLine`. -/
def capsMsg : WireMsg Unit :=
  { jsonrpc := some "2.0", method := some "capabilities",
    id := some (JsonId.num 3), mtype := none, name := none, params := none }

/-- `JSON.parse` restricted to the two concrete lines above. -/
def parseC5 : List Char → Option (WireMsg Unit) :=
  fun l => if l = notifLine then some notifMsg
           else if l = capsLine then some capsMsg
           else none

/-- One input chunk carrying the notification line and the complete
`capabilities` line, each newline-terminated. -/
def chunkC5 : List Char := notifLine ++ '\n' :: capsLine ++ ['\n']

/-! ## Helper lemmas -/

theorem recGet_recUpsert_self (k : String) (v : α) (l : List (String × α)) :
    recGet k (recUpsert k v l) = some v := by
  induction l with
  | nil => simp [recGet, recUpsert]
  | cons p t ih =>
    by_cases h : p.1 = k
    · simp [recGet, recUpsert, h]
    · simp [recGet, recUpsert, h, ih]

theorem recGet_recUpsert_ne (k k₁ : String) (v : α) (l : List (String × α))
    (hne : k₁ ≠ k) : recGet k₁ (recUpsert k v l) = recGet k₁ l := by
  induction l with
  | nil => simp [recGet, recUpsert, Ne.symm hne]
  | cons p t ih =>
    by_cases h : p.1 = k
    · subst h
      simp [recGet, recUpsert, Ne.symm hne, hne]
    · by_cases h₁ : p.1 = k₁ <;> simp [recGet, recUpsert, h, h₁, ih, hne]

theorem recUpsert_recUpsert_self (k : String) (v v₁ : α) (l : List (String × α)) :
    recUpsert k v (recUpsert k v₁ l) = recUpsert k v l := by
  induction l with
  | nil => simp [recUpsert]
  | cons p t ih =>
    by_cases h : p.1 = k
    · simp [recUpsert, h]
    · simp [recUpsert, h, ih]

theorem foldl_push_filter (p : α → Bool) (l : List α) :
    ∀ acc : List α,
      l.foldl (fun r x => if p x then r ++ [x] else r) acc = acc ++ l.filter p := by
  induction l with
  | nil => intro acc; simp
  | cons x t ih =>
    intro acc
    by_cases h : p x
    · simp [List.foldl_cons, h, ih, List.filter_cons]
    · simp [List.foldl_cons, h, ih, List.filter_cons]

theorem foldl_items_flatMap (g : β → List α) (p : α → Bool) (fs : List β) :
    ∀ acc : List α,
      fs.foldl
        (fun results f =>
          (g f).foldl (fun results item => if p item then results ++ [item] else results)
            results)
        acc
      = acc ++ (fs.flatMap g).filter p := by
  induction fs with
  | nil => intro acc; simp
  | cons f t ih =>
    intro acc
    rw [List.foldl_cons, foldl_push_filter, ih, List.flatMap_cons, List.filter_append,
      List.append_assoc]

theorem searchFeeds_eq_filter (st : RSSState) (q : String) :
    searchFeeds st q
      = ((st.feeds.map Prod.snd).flatMap Feed.items).filter (itemMatches (jsToLower q)) := by
  unfold searchFeeds
  simpa using foldl_items_flatMap Feed.items (itemMatches (jsToLower q)) (st.feeds.map Prod.snd) []

theorem rtype_truthy (b : ResponseBody V U) : jsTruthyStr (some b.rtype) = true := by
  cases b <;> rfl

theorem dispatchEx_ok_shape (srv : McpServer V U) (req : MCPRequest U)
    (resp : MCPResponse V U) (h : dispatchEx srv req = Except.ok resp) :
    ∃ body, resp = mkResp req body := by
  unfold dispatchEx at h
  repeat' split at h
  all_goals cases h
  all_goals exact ⟨_, rfl⟩

theorem dispatch_is_mkResp (srv : McpServer V U) (req : MCPRequest U) :
    ∃ body, dispatch srv req = mkResp req body := by
  unfold dispatch
  cases hd : dispatchEx srv req with
  | ok resp =>
    obtain ⟨b, hb⟩ := dispatchEx_ok_shape srv req resp hd
    exact ⟨b, hb⟩
  | error msg => exact ⟨.errorResult msg, rfl⟩

theorem send_envl_of_rpc (serverCaps : Option (Capabilities U)) (ts : TransportState)
    (m : MCPResponse V U) (hts : ts.isJsonRpc = true) :
    ∃ o, send serverCaps ts m = OutMsg.envl o
      ∧ o.id = (if m.jsonrpc.isSome && m.id.isSome then m.id else none) := by
  have hcond : (ts.isJsonRpc && jsTruthyStr (some m.body.rtype)) = true := by
    rw [hts, rtype_truthy]
    rfl
  unfold send
  rw [if_pos hcond]
  cases m with
  | mk jr i b => cases b <;> exact ⟨_, rfl, rfl⟩

theorem handleLine_rpc_mono (parse : List Char → Option (WireMsg U))
    (ie : Bool) (l : List Char) :
    (handleLine parse ie true l).2.1 = true := by
  unfold handleLine
  repeat' split
  all_goals rfl

theorem runLines_rpc_mono (parse : List Char → Option (WireMsg U))
    (ls : List (List Char)) :
    ∀ (ie : Bool) (acc : List (MCPRequest U)),
      (runLines parse ls ie true acc).2.2.1 = true := by
  induction ls with
  | nil => intro ie acc; rfl
  | cons l t ih =>
    intro ie acc
    simp only [runLines]
    by_cases he : (jsTrim l).isEmpty = true
    · rw [if_pos he]
      exact ih ie acc
    · rw [if_neg he]
      rcases hH : handleLine parse ie true (jsTrim l) with ⟨i₁, r₁, o⟩
      have hr : r₁ = true := by
        have h₁ := handleLine_rpc_mono parse ie (jsTrim l)
        rw [hH] at h₁
        exact h₁
      subst hr
      cases o with
      | emit r => exact ih i₁ (acc ++ [r])
      | silent => exact ih i₁ acc
      | abort => rfl

theorem charsHas_nil (hay : List Char) : charsHas [] hay = true := by
  cases hay <;> rfl

theorem dispatchEx_tool (srv : McpServer V U) (r : MCPRequest U)
    (ht : r.type = some "tool") :
    dispatchEx srv r =
      (match r.name with
       | some (JsVal.str nm) =>
         (match recGet nm srv.tools with
          | none => Except.error ("Tool not found: " ++ nm)
          | some t =>
            match t.handler (r.params.getD []) with
            | Except.error e => Except.error e
            | Except.ok v => Except.ok (mkResp r (ResponseBody.toolResult v)))
       | _ => Except.error "Tool name must be a string") := by
  unfold dispatchEx
  rw [ht]
  simp [jsTruthyStr]

theorem onData_rpc_mono (parse : List Char → Option (WireMsg U))
    (ts : TransportState) (chunk : List Char) (h : ts.isJsonRpc = true) :
    ((onData parse ts chunk).1).isJsonRpc = true := by
  simp only [onData, h]
  exact runLines_rpc_mono parse (splitBuffer (ts.buffer ++ chunk)).1
    ts.initializedEmitted []

/-! ## Claim theorems -/

/-- Claim C1: for every dispatched Request the Router produces exactly one
Response (the listener sends at most one response, and exactly one for every
request object); every exception raised during dispatch — an unregistered
tool name such as "ghost-tool", a non-string tool name, or an error from the
awaited handler — is caught at the single boundary and converted into an
error Response carrying the exception's message, and no exception escapes
(`dispatch` is a total function). -/
theorem dispatch_error_boundary (srv : McpServer V U) (r : MCPRequest U) :
    handleRequest srv (ReqVal.obj r) = some (dispatch srv r)
  ∧ (∀ msg, dispatchEx srv r = Except.error msg →
      dispatch srv r = errorResponseFor r msg)
  ∧ (∀ resp, dispatchEx srv r = Except.ok resp → dispatch srv r = resp)
  ∧ (∀ nm, r.type = some "tool" → r.name = some (JsVal.str nm) →
      recGet nm srv.tools = none →
      dispatch srv r = errorResponseFor r ("Tool not found: " ++ nm))
  ∧ (r.type = some "tool" → (∀ s, r.name ≠ some (JsVal.str s)) →
      dispatch srv r = errorResponseFor r "Tool name must be a string")
  ∧ (∀ nm t e, r.type = some "tool" → r.name = some (JsVal.str nm) →
      recGet nm srv.tools = some t → t.handler (r.params.getD []) = Except.error e →
      dispatch srv r = errorResponseFor r e) := by
  have herr : ∀ msg, dispatchEx srv r = Except.error msg →
      dispatch srv r = errorResponseFor r msg := by
    intro msg h
    unfold dispatch
    rw [h]
  refine ⟨rfl, herr, ?_, ?_, ?_, ?_⟩
  · intro resp h
    unfold dispatch
    rw [h]
  · intro nm ht hn hg
    exact herr _ (by simp [dispatchEx_tool srv r ht, hn, hg])
  · intro ht hn
    refine herr _ ?_
    rw [dispatchEx_tool srv r ht]
    rcases hr : r.name with _ | v
    · rfl
    · cases v with
      | str s => exact absurd hr (hn s)
      | other => rfl
  · intro nm t e ht hn hg hh
    exact herr _ (by simp [dispatchEx_tool srv r ht, hn, hg, hh])

/-- Witness for C1: dispatching `tool` naming the unregistered "ghost-tool"
against the concrete server `srv0` yields the reported error Response. -/
theorem dispatch_error_boundary_witness :
    ghostReq.type = some "tool"
  ∧ ghostReq.name = some (JsVal.str "ghost-tool")
  ∧ recGet "ghost-tool" srv0.tools = none
  ∧ dispatch srv0 ghostReq = errorResponseFor ghostReq ("Tool not found: " ++ "ghost-tool") :=
  ⟨rfl, rfl, rfl,
    (dispatch_error_boundary srv0 ghostReq).2.2.2.1 "ghost-tool" rfl rfl rfl⟩

/-- Claim C2: a successful refresh replaces the cached snapshot with one
whose items are exactly the first `min(k, maxItems)` source items in source
order, hence `items.length ≤ maxItems`; the title defaults to the feed's
name when the source provides none, and other feeds' snapshots are left
alone. -/
theorem fetchFeed_success_snapshot (st : RSSState) (nm : String) (cfg : FeedConfig)
    (pf : ParsedFeed) (now : Nat)
    (hcfg : recGet nm st.feedConfigs = some cfg) :
    fetchFeed st nm (Except.ok pf) now =
      ({ st with feeds := recUpsert nm (buildSnapshot cfg nm pf now) st.feeds }, none)
  ∧ recGet nm ((fetchFeed st nm (Except.ok pf) now).1.feeds)
      = some (buildSnapshot cfg nm pf now)
  ∧ (buildSnapshot cfg nm pf now).items = (pf.items.map convItem).take cfg.maxItems
  ∧ (buildSnapshot cfg nm pf now).items.length = min cfg.maxItems pf.items.length
  ∧ (buildSnapshot cfg nm pf now).items.length ≤ cfg.maxItems
  ∧ (pf.title = none → (buildSnapshot cfg nm pf now).title = nm)
  ∧ (∀ k, k ≠ nm →
      recGet k ((fetchFeed st nm (Except.ok pf) now).1.feeds) = recGet k st.feeds) := by
  have hf : fetchFeed st nm (Except.ok pf) now =
      ({ st with feeds := recUpsert nm (buildSnapshot cfg nm pf now) st.feeds }, none) := by
    unfold fetchFeed
    rw [hcfg]
  refine ⟨hf, ?_, rfl, ?_, ?_, ?_, ?_⟩
  · rw [hf]
    exact recGet_recUpsert_self nm (buildSnapshot cfg nm pf now) st.feeds
  · simp [buildSnapshot]
  · simp [buildSnapshot]
  · intro h
    simp [buildSnapshot, h, jsStrOr]
  · intro k hk
    rw [hf]
    exact recGet_recUpsert_ne nm k (buildSnapshot cfg nm pf now) st.feeds hk

/-- Witness for C2 on the spec's scenario: feed `n1` with `maxItems = 1`
whose source returns 3 items; after the refresh the snapshot holds exactly
the source's first item and the title falls back to "n1". -/
theorem fetchFeed_success_snapshot_witness :
    recGet "n1" stN1.feedConfigs = some cfg1
  ∧ recGet "n1" ((fetchFeed stN1 "n1" (Except.ok pf3) 0).1.feeds)
      = some (buildSnapshot cfg1 "n1" pf3 0)
  ∧ (buildSnapshot cfg1 "n1" pf3 0).items = [convItem (mkTitledItem (some "A"))]
  ∧ (buildSnapshot cfg1 "n1" pf3 0).items.length = 1
  ∧ (buildSnapshot cfg1 "n1" pf3 0).title = "n1" :=
  ⟨rfl, (fetchFeed_success_snapshot stN1 "n1" cfg1 pf3 0 rfl).2.1, rfl, rfl,
    (fetchFeed_success_snapshot stN1 "n1" cfg1 pf3 0 rfl).2.2.2.2.2.1 rfl⟩

/-- Claim C4: when the fetch/parse of a registered feed fails, the previous
cached snapshot (indeed the whole registry state) is left unchanged; the
error is rethrown to an explicit `fetchFeed` caller, while the
timer-triggered path returns no error and only logs. -/
theorem fetchFeed_failure_preserves (st : RSSState) (nm e : String)
    (cfg : FeedConfig) (now : Nat)
    (hcfg : recGet nm st.feedConfigs = some cfg) :
    fetchFeed st nm (Except.error e) now = (st, some e)
  ∧ timerTick st nm (Except.error e) now =
      (st, [LogMsg.error ("[RSSService] Error refreshing feed " ++ nm ++ ":")]) := by
  have hf : fetchFeed st nm (Except.error e) now = (st, some e) := by
    unfold fetchFeed
    rw [hcfg]
  exact ⟨hf, by simp [timerTick, hf]⟩

/-- Witness for C4: the registered feed `n1` with a failing fetch. -/
theorem fetchFeed_failure_preserves_witness :
    recGet "n1" stN1.feedConfigs = some cfg1
  ∧ fetchFeed stN1 "n1" (Except.error "boom") 0 = (stN1, some "boom")
  ∧ timerTick stN1 "n1" (Except.error "boom") 0 =
      (stN1, [LogMsg.error ("[RSSService] Error refreshing feed " ++ "n1" ++ ":")]) :=
  ⟨rfl, (fetchFeed_failure_preserves stN1 "n1" "boom" cfg1 0 rfl).1,
    (fetchFeed_failure_preserves stN1 "n1" "boom" cfg1 0 rfl).2⟩

/-- Claim C9: removing an unregistered feed name is a no-op that only logs
a warning — the whole registry state (configs, snapshots, timers) is
returned unchanged, and no error is raised (the function is total and its
only output besides the state is the warning line). -/
theorem removeFeed_missing_noop (st : RSSState) (nm : String)
    (h : recGet nm st.feedConfigs = none) :
    removeFeed st nm =
      (st, [LogMsg.warn ("No feed with name " ++ sq ++ nm ++ sq ++ " found.")]) := by
  unfold removeFeed
  rw [h]
  rfl

/-- Witness for C9: `remove("missing")` on the empty registry. -/
theorem removeFeed_missing_noop_witness :
    recGet "missing" stEmpty.feedConfigs = none
  ∧ removeFeed stEmpty "missing" =
      (stEmpty, [LogMsg.warn ("No feed with name " ++ sq ++ "missing" ++ sq ++ " found.")]) :=
  ⟨rfl, removeFeed_missing_noop stEmpty "missing" rfl⟩

/-- Claim C10: every item stored by the refresh item-mapping has a defined
title (`"Untitled"` when the source entry provides none), and on a store
whose cached items all have defined titles, searching the empty query
matches every cached item. -/
theorem stored_titles_and_empty_query (pf : ParsedFeed) (st : RSSState)
    (hall : ∀ p ∈ st.feeds, ∀ item ∈ p.2.items, item.title.isSome = true) :
    (∀ item ∈ pf.items.map convItem, item.title.isSome = true)
  ∧ (∀ i : ParsedItem, i.title = none → (convItem i).title = some "Untitled")
  ∧ searchFeeds st "" = (st.feeds.map Prod.snd).flatMap Feed.items := by
  refine ⟨?_, ?_, ?_⟩
  · intro item hmem
    obtain ⟨i, _, rfl⟩ := List.mem_map.mp hmem
    rfl
  · intro i h
    simp [convItem, h, jsStrOr]
  · rw [searchFeeds_eq_filter]
    apply List.filter_eq_self.mpr
    intro item hmem
    obtain ⟨f, hf, hi⟩ := List.mem_flatMap.mp hmem
    obtain ⟨p, hp, rfl⟩ := List.mem_map.mp hf
    have ht := hall p hp item hi
    rcases hsom : item.title with _ | s
    · rw [hsom] at ht
      simp at ht
    · simp only [itemMatches, hsom, jsIncludes, Bool.or_eq_true]
      left
      rw [show (jsToLower "").data = [] from rfl]
      exact charsHas_nil _

/-- Witness for C10: the one-feed store `stA`, whose only item has a
defined title, is fully returned by the empty query. -/
theorem stored_titles_and_empty_query_witness :
    (∀ p ∈ stA.feeds, ∀ item ∈ p.2.items, item.title.isSome = true)
  ∧ searchFeeds stA "" = (stA.feeds.map Prod.snd).flatMap Feed.items :=
  ⟨by decide, (stored_titles_and_empty_query pf3 stA (by decide)).2.2⟩

/-- Claim C8: `search(query)` returns exactly the cached items whose title,
content or snippet contains the lowercased query as a substring, scanning
feeds in store order and items in snapshot order (a filter of the
concatenation — no ranking, no deduplication); in particular
`search("TECH")` and `search("tech")` coincide on every store. -/
theorem searchFeeds_characterization (st : RSSState) (q : String) :
    searchFeeds st q
      = ((st.feeds.map Prod.snd).flatMap Feed.items).filter (itemMatches (jsToLower q))
  ∧ searchFeeds st "TECH" = searchFeeds st "tech" := by
  refine ⟨searchFeeds_eq_filter st q, ?_⟩
  rw [searchFeeds_eq_filter, searchFeeds_eq_filter,
    show (jsToLower "TECH") = (jsToLower "tech") from by decide]

/-- Claim C7: registering a tool twice under one name (same description,
parameter shape and handler) leaves the server — capability table and tool
handler set — identical to registering it once; more generally the second
registration fully overwrites the first (last write wins). -/
theorem registerTool_last_write_wins (srv : McpServer V U) (n d d₁ : String)
    (p p₁ : PBag U) (h h₁ : PBag U → Except String V) :
    registerTool (registerTool srv n d p h) n d p h = registerTool srv n d p h
  ∧ registerTool (registerTool srv n d₁ p₁ h₁) n d p h = registerTool srv n d p h := by
  constructor <;> simp [registerTool, recUpsert_recUpsert_self]

/-- Counterexample for C6: with a 10 ms interval and a 5 ms refresh
duration, the source's `setInterval` schedule fires tick 1 at 20 ms, while
a fixed-delay schedule would fire it at 25 ms — the claimed fixed-delay
contract does not hold of the code. -/
theorem refresh_schedule_counterexample :
    codeTickTime 10 (fun _ => 5) 1 = 20
  ∧ fixedDelayTickTime 10 (fun _ => 5) 1 = 25
  ∧ codeTickTime 10 (fun _ => 5) 1 ≠ fixedDelayTickTime 10 (fun _ => 5) 1 :=
  ⟨rfl, rfl, by decide⟩

/-- Claim C6 as amended: the recurring refresh timer uses fixed-rate
scheduling — each tick fires a fixed interval after the previous tick's
nominal start, independent of the refresh durations, so tick `n` fires at
`(n+1) * refreshInterval`. -/
theorem refresh_schedule_fixed_rate (d : Nat) (dur dur₁ : Nat → Nat) (n : Nat) :
    codeTickTime d dur (n + 1) = codeTickTime d dur n + d
  ∧ codeTickTime d dur n = codeTickTime d dur₁ n
  ∧ codeTickTime d dur n = (n + 1) * d := by
  refine ⟨rfl, ?_, ?_⟩
  · induction n with
    | zero => rfl
    | succ m ih => simp [codeTickTime, ih]
  · induction n with
    | zero => simp [codeTickTime]
    | succ m ih =>
      simp [codeTickTime, ih]
      ring

/-- Claim C5 (evidence for the code bug): a chunk carrying a complete
`notifications/`-prefixed line followed by a complete `capabilities` line
yields no request at all for that chunk — the notification's early `return`
exits the data handler, leaving the second complete line (terminator
included) in the buffer — whereas the claimed contract requires the second
line to be processed during this chunk's handling. -/
theorem notification_return_defers_lines :
    (splitBuffer chunkC5).1 = [notifLine, capsLine]
  ∧ (splitBuffer chunkC5).2 = []
  ∧ onData parseC5 tsInit chunkC5 =
      ({ buffer := capsLine ++ ['\n'], initializedEmitted := false, isJsonRpc := true }, []) :=
  ⟨rfl, rfl, rfl⟩

/-- Claim C3: once a session has seen an enveloped message
(`isJsonRpc = true`), processing further input never clears the flag; every
outgoing Response is then serialized in the enveloped shape (never the
native shape), and the Response to an enveloped request carries the
request's id — e.g. id 7 comes back as id 7. -/
theorem enveloped_session_sticky (parse : List Char → Option (WireMsg U))
    (serverCaps : Option (Capabilities U)) (srv : McpServer V U)
    (ts : TransportState) (chunk : List Char) (m : MCPResponse V U)
    (req : MCPRequest U) :
    (ts.isJsonRpc = true → ((onData parse ts chunk).1).isJsonRpc = true)
  ∧ (ts.isJsonRpc = true → ∃ o, send serverCaps ts m = OutMsg.envl o)
  ∧ (ts.isJsonRpc = true → req.jsonrpc = some "2.0" → req.id = some (JsonId.num 7) →
      ∃ o, send serverCaps ts (dispatch srv req) = OutMsg.envl o
        ∧ o.id = some (JsonId.num 7)) := by
  refine ⟨onData_rpc_mono parse ts chunk, ?_, ?_⟩
  · intro hts
    obtain ⟨o, ho, _⟩ := send_envl_of_rpc serverCaps ts m hts
    exact ⟨o, ho⟩
  · intro hts hj hid
    obtain ⟨b, hb⟩ := dispatch_is_mkResp srv req
    obtain ⟨o, ho, hoid⟩ := send_envl_of_rpc serverCaps ts (dispatch srv req) hts
    refine ⟨o, ho, ?_⟩
    rw [hoid, hb]
    unfold mkResp
    rw [if_pos hj]
    simp [hj, hid]

/-- Witness for C3: against the concrete server `srv0`, a session already
committed to the enveloped dialect answers the enveloped `capabilities`
request with id 7 by an enveloped message with id 7. -/
theorem enveloped_session_sticky_witness :
    tsRpc.isJsonRpc = true
  ∧ req7.jsonrpc = some "2.0"
  ∧ req7.id = some (JsonId.num 7)
  ∧ ∃ o, send none tsRpc (dispatch srv0 req7) = OutMsg.envl o
        ∧ o.id = some (JsonId.num 7) :=
  ⟨rfl, rfl, rfl,
    (enveloped_session_sticky (fun _ => none) none srv0 tsRpc []
        { jsonrpc := none, id := none, body := ResponseBody.errorResult "" } req7).2.2
      rfl rfl rfl⟩

end OpenGathyr
